import Mathlib

/-!
# AskDocs backend (`src/backend/server.js`)

A shallow embedding of the three Express routes of the server
(`POST /upload`, `POST /chat`, `DELETE /clear-index`) together with the
process-wide state they mutate: the set `uploadedSourceNames`, the array
`History`, and, made explicit, the content of the Pinecone index, the temporary
files multer wrote under `uploads/`, and the sequence of calls made to the
external collaborators.

The external collaborators (PDF parser, text splitter, embedding service, vector
index, text generation service) are not part of the repository.  Their answers
are supplied by a `World` record of oracles, so every theorem quantifies over
every possible behaviour of these services, failures included.
-/

set_option autoImplicit false

namespace AskDocs

/-! ## Data model -/

/-- JSON values that occur in responses and in document metadata. -/
inductive JVal where
  | str (s : String)
  | num (n : Nat)
  | bool (b : Bool)
  deriving DecidableEq, Repr

/-- A JavaScript object used as a record of named fields, in insertion order. -/
abbrev Obj := List (String × JVal)

/-- A LangChain `Document`: its text and its metadata object. -/
structure Document where
  pageContent : String
  metadata : Obj
  deriving DecidableEq, Repr

/-- One entry of `req.files` as produced by multer: the name the client gave
the file and the path of the temporary copy under `uploads/`. -/
structure File where
  originalname : String
  path : String
  deriving DecidableEq, Repr

/-- One entry of `History` (also the shape of the messages sent to the
text generation service). -/
structure Turn where
  role : String
  content : String
  deriving DecidableEq, Repr

/-- What a handler sends back: `res.status(n).json(body)`; `res.json(body)`
alone sends status 200. -/
structure Response where
  status : Nat
  body : Obj
  deriving DecidableEq, Repr

/-- Calls made to the file system and to the external collaborators, in the
order the handlers make them. -/
inductive Event where
  | load (path : String)
  | split (docs : List Document)
  | upsert (chunks : List Document)
  | unlink (path : String)
  | deleteAll
  deriving DecidableEq, Repr

/-- The embedding vector of a query.  The handlers only pass it from the
embedding service to the index. -/
abbrev Embedding := List Int

/-- Outcome of `PineconeStore.fromDocuments`: either every chunk was written, or
the call threw after `written` chunks had already reached the index. -/
inductive Upsert where
  | ok
  | failed (msg : String) (written : Nat)
  deriving DecidableEq, Repr

/-- Answers of the external collaborators during one request. -/
structure World where
  /-- Result of `new PDFLoader(path).load()`. -/
  load : String → Except String (List Document)
  /-- Result of `textSplitter.splitDocuments(docs)` with chunk size 850 and overlap 150. -/
  splitDocuments : List Document → Except String (List Document)
  /-- Result of `PineconeStore.fromDocuments(chunks, embeddings, ...)`. -/
  fromDocuments : List Document → Upsert
  /-- Result of `pineconeIndex.deleteAll()`: `none` when it succeeds. -/
  deleteAll : Option String
  /-- Result of `groq.chat.completions.create(...)` followed by
  `.choices[0].message.content`; the second argument is the temperature. -/
  create : List Turn → Option Nat → Except String String
  /-- Result of `embeddings.embedQuery(text)`. -/
  embedQuery : String → Except String Embedding
  /-- Error thrown by `pineconeIndex.query(...)`, if any. -/
  queryError : Option String
  /-- Similarity the index assigns to a stored record for a query vector. -/
  score : Embedding → Document → Int

/-- Process-wide state of the server, with the state of the file system and of
the vector index made explicit. -/
structure Server where
  /-- The global `uploadedSourceNames` (a JavaScript `Set` of strings). -/
  uploadedSourceNames : Finset String
  /-- The global `History`. -/
  History : List Turn
  /-- Records held by the Pinecone index. -/
  index : List Document
  /-- Temporary files present under `uploads/`. -/
  tmpFiles : Finset String
  /-- Calls made so far. -/
  log : List Event

/-- `const MAX_FILES_ALLOWED = 5;` -/
def MAX_FILES_ALLOWED : Nat := 5

/-- State of a freshly started server: `new Set()`, `[]`, nothing uploaded. -/
def init : Server :=
  { uploadedSourceNames := ∅, History := [], index := [], tmpFiles := ∅, log := [] }

/-! ## `POST /upload` -/

/-- `fs.unlinkSync(path)`: removes the file, or throws when there is none.
Returns the state afterwards and the error thrown, if any. -/
def unlinkSync (s : Server) (path : String) : Server × Option String :=
  if path ∈ s.tmpFiles then
    ({ s with tmpFiles := s.tmpFiles.erase path, log := s.log ++ [Event.unlink path] }, none)
  else
    (s, some ("ENOENT: no such file or directory, unlink \x27" ++ path ++ "\x27"))

/-- The `rawDocs.map(doc => { doc.metadata = { source: file.originalname }; return doc; })`
of the upload loop. -/
def cleanDocs (file : File) (rawDocs : List Document) : List Document :=
  rawDocs.map (fun doc => { doc with metadata := [("source", JVal.str file.originalname)] })

/-- One iteration of `for (const file of req.files)`.  Returns the state when the
iteration ends and the error it threw, if any; a thrown error leaves the state
as it was at the throwing call.  (The local counter `totalChunks` is never read
and is left out.) -/
def uploadFile (w : World) (s : Server) (file : File) : Server × Option String :=
  if file.originalname ∈ s.uploadedSourceNames then
    unlinkSync s file.path
  else
    let s1 := { s with log := s.log ++ [Event.load file.path] }
    match w.load file.path with
    | .error e => (s1, some e)
    | .ok rawDocs =>
      let s2 := { s1 with log := s1.log ++ [Event.split (cleanDocs file rawDocs)] }
      match w.splitDocuments (cleanDocs file rawDocs) with
      | .error e => (s2, some e)
      | .ok chunkedDocs =>
        match w.fromDocuments chunkedDocs with
        | .failed e written =>
          ({ s2 with index := s2.index ++ chunkedDocs.take written,
                     log := s2.log ++ [Event.upsert chunkedDocs] }, some e)
        | .ok =>
          let s3 := { s2 with index := s2.index ++ chunkedDocs,
                              log := s2.log ++ [Event.upsert chunkedDocs] }
          let s4 := { s3 with
            uploadedSourceNames := insert file.originalname s3.uploadedSourceNames }
          unlinkSync s4 file.path

/-- The loop `for (const file of req.files) { ... }`: stops at the first
iteration that throws. -/
def uploadLoop (w : World) (s : Server) : List File → Server × Option String
  | [] => (s, none)
  | file :: rest =>
    match uploadFile w s file with
    | (s', none) => uploadLoop w s' rest
    | (s', some e) => (s', some e)

/-- Body of the 403 answer. -/
def limitBody (s : Server) : Obj :=
  [("error", JVal.str ("Limit reached! You can only have " ++ toString MAX_FILES_ALLOWED ++
    " files total. You already have " ++ toString s.uploadedSourceNames.card ++ "."))]

/-- Body of the 200 answer of `/upload`. -/
def successBody (s : Server) : Obj :=
  [("success", JVal.bool true),
   ("message", JVal.str ("Successfully added. Total files in knowledge base: " ++
      toString s.uploadedSourceNames.card ++ "/" ++ toString MAX_FILES_ALLOWED)),
   ("fileCount", JVal.num s.uploadedSourceNames.card)]

/-- The handler of `app.post('/upload', ...)`, run on `req.files`.  An absent
`req.files` takes the same branch as an empty array. -/
def uploadHandler (w : World) (s : Server) (files : List File) : Server × Response :=
  if files.length = 0 then
    (s, ⟨400, [("error", JVal.str "No files uploaded.")]⟩)
  else if s.uploadedSourceNames.card + files.length > MAX_FILES_ALLOWED then
    (s, ⟨403, limitBody s⟩)
  else
    match uploadLoop w s files with
    | (s', none) => (s', ⟨200, successBody s'⟩)
    | (s', some e) => (s', ⟨500, [("error", JVal.str e)]⟩)

/-- The middleware `upload.array('files')`: multer has written every file
of the request under `uploads/` before the handler runs. -/
def multerArray (s : Server) (files : List File) : Server :=
  { s with tmpFiles := s.tmpFiles ∪ (files.map File.path).toFinset }

/-- The route `POST /upload`: middleware, then handler. -/
def uploadRoute (w : World) (s : Server) (files : List File) : Server × Response :=
  uploadHandler w (multerArray s files) files

/-! ## `DELETE /clear-index` -/

/-- The handler of `app.delete('/clear-index', ...)`: wipe the index, then
clear the set of source names.  When `deleteAll` throws, the set is not
cleared. -/
def clearIndexHandler (w : World) (s : Server) : Server × Response :=
  let s1 := { s with log := s.log ++ [Event.deleteAll] }
  match w.deleteAll with
  | some e => (s1, ⟨500, [("error", JVal.str e)]⟩)
  | none =>
    ({ s1 with index := [], uploadedSourceNames := ∅ },
     ⟨200, [("message",
        JVal.str "Database completely cleared. You can now upload fresh files.")]⟩)

/-! ## `POST /chat` -/

/-- `Array.prototype.slice(start)` for an integer `start`: a negative `start`
counts from the end of the array. -/
def jsSlice {α : Type} (xs : List α) (start : Int) : List α :=
  if start < 0 then xs.drop (Int.toNat ((xs.length : Int) + start))
  else xs.drop (min (Int.toNat start) xs.length)

/-- How a template literal renders a value. -/
def JVal.render : JVal → String
  | .str s => s
  | .num n => toString n
  | .bool true => "true"
  | .bool false => "false"

/-- Rendering of the property `key` of an object inside a template literal; an
absent property renders as `undefined`. -/
def renderField (o : Obj) (key : String) : String :=
  match o.lookup key with
  | some v => v.render
  | none => "undefined"

/-- Metadata of the record the index holds for a chunk: the metadata of the
chunk, and its text under the key `text`. -/
def recordMetadata (d : Document) : Obj :=
  d.metadata.filter (fun kv => kv.1 ≠ "text") ++ [("text", JVal.str d.pageContent)]

/-- `pineconeIndex.query({ topK, vector, includeMetadata: true })` followed by
`.matches`, as the metadata objects of the matches: the `topK` records of the
index with the highest similarity, best first. -/
def pineconeQuery (w : World) (index : List Document) (topK : Nat) (vector : Embedding) :
    Except String (List Obj) :=
  match w.queryError with
  | some e => .error e
  | none =>
    .ok (((index.insertionSort (fun a b => w.score vector b ≤ w.score vector a)).take topK).map
      recordMetadata)

/-- The message `rephraseSystem`. -/
def rephraseSystem : Turn :=
  ⟨"system", "Rephrase user input into a standalone search query. Output ONLY the query."⟩

/-- The string `context` built from the matches. -/
def buildContext (results : List Obj) : String :=
  "\n\n---\n\n".intercalate
    (results.map (fun m => "[Source: " ++ renderField m "source" ++ "]\n" ++ renderField m "text"))

/-- The message `systemPrompt`. -/
def systemPrompt (context : String) : Turn :=
  ⟨"system", "You have to behave like an Expert Teacher.\n            You will be given a context of relevant information and a user question.\n            Your task is to answer the user\x27s question based ONLY on the provided context.\n            If the answer is not in the context, you must say \"I could not find the answer in the provided document.\"\n            Keep your answers clear, concise, and educational.\n            \n            <context>" ++ context ++ "</context>"⟩

/-- The statement `if (History.length > 8) History = History.slice(-8);`. -/
def trimHistory (s : Server) : Server :=
  if s.History.length > 8 then { s with History := jsSlice s.History (-8) } else s

/-- `History.push(turn)`. -/
def pushHistory (s : Server) (turn : Turn) : Server :=
  { s with History := s.History ++ [turn] }

/-- Body of a 500 answer. -/
def errorResponse (e : String) : Response :=
  ⟨500, [("error", JVal.str e)]⟩

/-- The handler of `app.post('/chat', ...)` run on `req.body.message`. -/
def chatHandler (w : World) (s : Server) (message : String) : Server × Response :=
  let s1 := trimHistory s
  match w.create (rephraseSystem :: s1.History ++ [⟨"user", message⟩]) (some 0) with
  | .error e => (s1, errorResponse e)
  | .ok standaloneQuery =>
    match w.embedQuery standaloneQuery with
    | .error e => (s1, errorResponse e)
    | .ok queryVector =>
      match pineconeQuery w s1.index 5 queryVector with
      | .error e => (s1, errorResponse e)
      | .ok results =>
        let s2 := pushHistory s1 ⟨"user", message⟩
        match w.create (systemPrompt (buildContext results) :: s2.History) none with
        | .error e => (s2, errorResponse e)
        | .ok reply => (pushHistory s2 ⟨"assistant", reply⟩, ⟨200, [("reply", JVal.str reply)]⟩)

/-! ## Sequences of requests -/

/-- A request together with the answers the external collaborators give while
it is handled. -/
inductive Request where
  | upload (w : World) (files : List File)
  | chat (w : World) (message : String)
  | clearIndex (w : World)

/-- Handling of one request. -/
def handle (s : Server) : Request → Server × Response
  | .upload w files => uploadRoute w s files
  | .chat w message => chatHandler w s message
  | .clearIndex w => clearIndexHandler w s

/-- State after a sequence of requests handled one after the other. -/
def run (s : Server) : List Request → Server
  | [] => s
  | r :: rs => run (handle s r).1 rs

/-- States the upload loop passes through: the state before each iteration and
the state in which the loop ends. -/
def uploadLoopPoints (w : World) (s : Server) : List File → List Server
  | [] => [s]
  | file :: rest =>
    s :: (match uploadFile w s file with
      | (s', none) => uploadLoopPoints w s' rest
      | (s', some _) => [s'])

/-- States the upload handler passes through. -/
def uploadPoints (w : World) (s : Server) (files : List File) : List Server :=
  if files.length = 0 then [s]
  else if s.uploadedSourceNames.card + files.length > MAX_FILES_ALLOWED then [s]
  else uploadLoopPoints w s files

/-- States the chat handler passes through: on entry, after the trim, after
each `push`. -/
def chatPoints (w : World) (s : Server) (message : String) : List Server :=
  let s1 := trimHistory s
  match w.create (rephraseSystem :: s1.History ++ [⟨"user", message⟩]) (some 0) with
  | .error _ => [s, s1]
  | .ok standaloneQuery =>
    match w.embedQuery standaloneQuery with
    | .error _ => [s, s1]
    | .ok queryVector =>
      match pineconeQuery w s1.index 5 queryVector with
      | .error _ => [s, s1]
      | .ok results =>
        let s2 := pushHistory s1 ⟨"user", message⟩
        match w.create (systemPrompt (buildContext results) :: s2.History) none with
        | .error _ => [s, s1, s2]
        | .ok reply => [s, s1, s2, pushHistory s2 ⟨"assistant", reply⟩]

/-- States the server passes through while it handles one request. -/
def points (s : Server) : Request → List Server
  | .upload w files => s :: uploadPoints w (multerArray s files) files
  | .chat w message => chatPoints w s message
  | .clearIndex w => [s, (clearIndexHandler w s).1]

/-- States the server passes through while it handles a sequence of requests. -/
def runPoints (s : Server) : List Request → List Server
  | [] => [s]
  | r :: rs => points s r ++ runPoints (handle s r).1 rs

/-! ## Concrete worlds and requests used to evaluate the handlers -/

/-- A world in which every collaborator succeeds: each PDF parses to one page
carrying parser metadata, the splitter returns its input, the model answers
`"reply"` and rephrases every question as `"query"`. -/
def okWorld : World :=
  { load := fun path => .ok [⟨"text of " ++ path, [("source", JVal.str path), ("page", JVal.num 1)]⟩]
    splitDocuments := fun docs => .ok docs
    fromDocuments := fun _ => Upsert.ok
    deleteAll := none
    create := fun _ temperature => .ok (if temperature = some 0 then "query" else "reply")
    embedQuery := fun _ => .ok [0]
    queryError := none
    score := fun _ _ => 0 }

/-- The file `a.pdf` as stored by multer. -/
def fileA : File := ⟨"a.pdf", "uploads/1"⟩

/-- The file `b.pdf` as stored by multer. -/
def fileB : File := ⟨"b.pdf", "uploads/2"⟩

/-- A second upload of a file named `a.pdf`. -/
def fileA2 : File := ⟨"a.pdf", "uploads/3"⟩

/-- A world like `okWorld` in which no PDF can be parsed. -/
def parseFailWorld : World :=
  { okWorld with load := fun _ => .error "Invalid PDF structure" }

/-- A world like `okWorld` in which only `uploads/2` cannot be parsed. -/
def secondFailsWorld : World :=
  { okWorld with
    load := fun path => if path = "uploads/2" then .error "Invalid PDF structure"
      else okWorld.load path }

/-- Five successive questions, each answered successfully. -/
def fiveChats : List Request :=
  List.replicate 5 (Request.chat okWorld "What is X?")

/-- A world like `okWorld` whose splitter records under `loc` where each
chunk lies in its document. -/
def locWorld : World :=
  { okWorld with
    splitDocuments := fun docs =>
      .ok (docs.map (fun d => { d with metadata := d.metadata ++ [("loc", JVal.str "1-1")] })) }

/-- The file `c.pdf` as stored by multer. -/
def fileC : File := ⟨"c.pdf", "uploads/4"⟩

/-- The file `d.pdf` as stored by multer. -/
def fileD : File := ⟨"d.pdf", "uploads/5"⟩

/-- A server on which `a.pdf`, `b.pdf`, `c.pdf` and `d.pdf` have been uploaded. -/
def fourSources : Server :=
  run init [Request.upload okWorld [fileA, fileB, fileC, fileD]]

/-! ## Predicates used in the statements -/

/-- Whether processing `file` (parse, then split, then upsert) throws. -/
def processingFails (w : World) (file : File) : Bool :=
  match w.load file.path with
  | .error _ => true
  | .ok rawDocs =>
    match w.splitDocuments (cleanDocs file rawDocs) with
    | .error _ => true
    | .ok chunkedDocs =>
      match w.fromDocuments chunkedDocs with
      | .failed _ _ => true
      | .ok => false

/-- The value a response reports under the name `key`, if any. -/
def Response.reports (r : Response) (key : String) : Option JVal :=
  r.body.lookup key

/-! ## Lemmas on the upload loop -/

/-- Iteration on a file whose name is registered: only the temporary file
is removed. -/
theorem uploadFile_dup {w : World} {s : Server} {file : File}
    (h : file.originalname ∈ s.uploadedSourceNames) :
    uploadFile w s file = unlinkSync s file.path := by
  unfold uploadFile
  simp only [h, if_true]

/-- Iteration whose `load` throws. -/
theorem uploadFile_load_error {w : World} {s : Server} {file : File} {e : String}
    (h : file.originalname ∉ s.uploadedSourceNames) (hl : w.load file.path = .error e) :
    uploadFile w s file = ({ s with log := s.log ++ [Event.load file.path] }, some e) := by
  unfold uploadFile
  simp only [h, if_false, hl]

/-- Iteration whose `splitDocuments` throws. -/
theorem uploadFile_split_error {w : World} {s : Server} {file : File} {e : String}
    {rawDocs : List Document}
    (h : file.originalname ∉ s.uploadedSourceNames) (hl : w.load file.path = .ok rawDocs)
    (hs : w.splitDocuments (cleanDocs file rawDocs) = .error e) :
    uploadFile w s file =
      ({ s with log := s.log ++ [Event.load file.path] ++
          [Event.split (cleanDocs file rawDocs)] }, some e) := by
  unfold uploadFile
  simp only [h, if_false, hl, hs]

/-- Iteration whose `fromDocuments` throws. -/
theorem uploadFile_upsert_error {w : World} {s : Server} {file : File} {e : String}
    {written : Nat} {rawDocs chunkedDocs : List Document}
    (h : file.originalname ∉ s.uploadedSourceNames) (hl : w.load file.path = .ok rawDocs)
    (hs : w.splitDocuments (cleanDocs file rawDocs) = .ok chunkedDocs)
    (hu : w.fromDocuments chunkedDocs = .failed e written) :
    uploadFile w s file =
      ({ s with index := s.index ++ chunkedDocs.take written,
                log := s.log ++ [Event.load file.path] ++
                  [Event.split (cleanDocs file rawDocs)] ++ [Event.upsert chunkedDocs] },
       some e) := by
  unfold uploadFile
  simp only [h, if_false, hl, hs, hu]

/-- Iteration whose parse, split and upsert all succeed. -/
theorem uploadFile_processed {w : World} {s : Server} {file : File}
    {rawDocs chunkedDocs : List Document}
    (h : file.originalname ∉ s.uploadedSourceNames) (hl : w.load file.path = .ok rawDocs)
    (hs : w.splitDocuments (cleanDocs file rawDocs) = .ok chunkedDocs)
    (hu : w.fromDocuments chunkedDocs = .ok) :
    uploadFile w s file =
      unlinkSync
        { s with index := s.index ++ chunkedDocs,
                 log := s.log ++ [Event.load file.path] ++
                   [Event.split (cleanDocs file rawDocs)] ++ [Event.upsert chunkedDocs],
                 uploadedSourceNames := insert file.originalname s.uploadedSourceNames }
        file.path := by
  unfold uploadFile
  simp only [h, if_false, hl, hs, hu]

/-- An iteration registers at most the name of its file. -/
theorem uploadFile_names_subset (w : World) (s : Server) (file : File) :
    (uploadFile w s file).1.uploadedSourceNames ⊆
      insert file.originalname s.uploadedSourceNames := by
  by_cases h1 : file.originalname ∈ s.uploadedSourceNames
  · rw [uploadFile_dup h1]
    unfold unlinkSync
    split_ifs <;> simp
  · cases hl : w.load file.path with
    | error e => rw [uploadFile_load_error h1 hl]; simp
    | ok rawDocs =>
      cases hs : w.splitDocuments (cleanDocs file rawDocs) with
      | error e => rw [uploadFile_split_error h1 hl hs]; simp
      | ok chunkedDocs =>
        cases hu : w.fromDocuments chunkedDocs with
        | failed e written => rw [uploadFile_upsert_error h1 hl hs hu]; simp
        | ok =>
          rw [uploadFile_processed h1 hl hs hu]
          unfold unlinkSync
          split_ifs <;> simp

/-- An iteration never removes a name. -/
theorem uploadFile_names_mono (w : World) (s : Server) (file : File) :
    s.uploadedSourceNames ⊆ (uploadFile w s file).1.uploadedSourceNames := by
  by_cases h1 : file.originalname ∈ s.uploadedSourceNames
  · rw [uploadFile_dup h1]
    unfold unlinkSync
    split_ifs <;> simp
  · cases hl : w.load file.path with
    | error e => rw [uploadFile_load_error h1 hl]
    | ok rawDocs =>
      cases hs : w.splitDocuments (cleanDocs file rawDocs) with
      | error e => rw [uploadFile_split_error h1 hl hs]
      | ok chunkedDocs =>
        cases hu : w.fromDocuments chunkedDocs with
        | failed e written => rw [uploadFile_upsert_error h1 hl hs hu]
        | ok =>
          rw [uploadFile_processed h1 hl hs hu]
          unfold unlinkSync
          split_ifs <;> simp

/-- An iteration that does not throw leaves the name of its file registered. -/
theorem uploadFile_names_of_ok (w : World) (s : Server) (file : File)
    (h : (uploadFile w s file).2 = none) :
    (uploadFile w s file).1.uploadedSourceNames =
      insert file.originalname s.uploadedSourceNames := by
  by_cases h1 : file.originalname ∈ s.uploadedSourceNames
  · rw [uploadFile_dup h1] at h ⊢
    unfold unlinkSync at h ⊢
    split_ifs at h ⊢
    simp_all
  · cases hl : w.load file.path with
    | error e => rw [uploadFile_load_error h1 hl] at h; simp at h
    | ok rawDocs =>
      cases hs : w.splitDocuments (cleanDocs file rawDocs) with
      | error e => rw [uploadFile_split_error h1 hl hs] at h; simp at h
      | ok chunkedDocs =>
        cases hu : w.fromDocuments chunkedDocs with
        | failed e written => rw [uploadFile_upsert_error h1 hl hs hu] at h; simp at h
        | ok =>
          rw [uploadFile_processed h1 hl hs hu] at h ⊢
          unfold unlinkSync at h ⊢
          split_ifs at h ⊢
          simp_all

/-- An iteration adds at most one name. -/
theorem uploadFile_card_le (w : World) (s : Server) (file : File) :
    (uploadFile w s file).1.uploadedSourceNames.card ≤ s.uploadedSourceNames.card + 1 :=
  le_trans (Finset.card_le_card (uploadFile_names_subset w s file))
    (Finset.card_insert_le _ _)

/-- Unfolding of the loop when the first iteration does not throw. -/
theorem uploadLoop_cons_ok {w : World} {s : Server} {file : File} {rest : List File}
    (h : (uploadFile w s file).2 = none) :
    uploadLoop w s (file :: rest) = uploadLoop w (uploadFile w s file).1 rest := by
  rcases hf : uploadFile w s file with ⟨s', _ | e⟩
  · simp [uploadLoop, hf]
  · simp [hf] at h

/-- Unfolding of the loop when the first iteration throws. -/
theorem uploadLoop_cons_error {w : World} {s : Server} {file : File} {rest : List File}
    {e : String} (h : (uploadFile w s file).2 = some e) :
    uploadLoop w s (file :: rest) = ((uploadFile w s file).1, some e) := by
  rcases hf : uploadFile w s file with ⟨s', _ | e'⟩
  · simp [hf] at h
  · simp [hf] at h
    simp [uploadLoop, hf, h]

/-- A loop that ends without throwing has registered the name of every file
of the batch, and nothing else. -/
theorem uploadLoop_names_of_ok (w : World) (s : Server) (files : List File)
    (h : (uploadLoop w s files).2 = none) :
    (uploadLoop w s files).1.uploadedSourceNames =
      s.uploadedSourceNames ∪ (files.map File.originalname).toFinset := by
  induction files generalizing s with
  | nil => simp [uploadLoop]
  | cons file rest ih =>
    cases hf : (uploadFile w s file).2 with
    | some e => rw [uploadLoop_cons_error hf] at h; simp at h
    | none =>
      rw [uploadLoop_cons_ok hf] at h ⊢
      rw [ih _ h, uploadFile_names_of_ok w s file hf]
      ext x
      simp only [Finset.mem_union, Finset.mem_insert, List.map_cons, List.toFinset_cons]
      tauto

/-- Every state the loop passes through holds at most as many names as the
state on entry plus the number of files of the batch. -/
theorem uploadLoopPoints_card (w : World) (n : Nat) (files : List File) (s : Server)
    (h : s.uploadedSourceNames.card + files.length ≤ n) :
    ∀ t ∈ uploadLoopPoints w s files, t.uploadedSourceNames.card ≤ n := by
  induction files generalizing s with
  | nil =>
    intro t ht
    simp only [uploadLoopPoints, List.mem_singleton] at ht
    subst ht
    simpa using h
  | cons file rest ih =>
    intro t ht
    have hc := uploadFile_card_le w s file
    simp only [List.length_cons] at h
    simp only [uploadLoopPoints, List.mem_cons] at ht
    rcases ht with rfl | ht
    · omega
    · rcases hf : uploadFile w s file with ⟨s', _ | e⟩
      · rw [hf] at ht hc
        exact ih s' (by simp only at hc; omega) t ht
      · rw [hf] at ht hc
        simp only [List.mem_singleton] at ht
        subst ht
        simp only at hc
        omega

/-- The state in which the loop ends is one of the states it passes through. -/
theorem uploadLoop_mem_points (w : World) (s : Server) (files : List File) :
    (uploadLoop w s files).1 ∈ uploadLoopPoints w s files := by
  induction files generalizing s with
  | nil => simp [uploadLoop, uploadLoopPoints]
  | cons file rest ih =>
    rcases hf : uploadFile w s file with ⟨s', _ | e⟩
    · simp only [uploadLoop, uploadLoopPoints, hf, List.mem_cons]
      exact Or.inr (ih s')
    · simp [uploadLoop, uploadLoopPoints, hf]

/-- The state the handler ends in is one of the states it passes through. -/
theorem uploadHandler_mem_points (w : World) (s : Server) (files : List File) :
    (uploadHandler w s files).1 ∈ uploadPoints w s files := by
  unfold uploadHandler uploadPoints
  split_ifs
  · simp
  · simp
  · have := uploadLoop_mem_points w s files
    rcases hl : uploadLoop w s files with ⟨s', _ | e⟩ <;> simpa [hl] using this

/-- Every state the upload handler passes through satisfies the capacity bound
when the state on entry does. -/
theorem uploadPoints_card (w : World) (s : Server) (files : List File)
    (h : s.uploadedSourceNames.card ≤ MAX_FILES_ALLOWED) :
    ∀ t ∈ uploadPoints w s files, t.uploadedSourceNames.card ≤ MAX_FILES_ALLOWED := by
  unfold uploadPoints
  split_ifs with h0 h1
  · simpa using h
  · simpa using h
  · exact uploadLoopPoints_card w _ files s (by omega)

/-- The loop on a batch, cut after a prefix that does not throw. -/
theorem uploadLoop_append (w : World) (s : Server) (pre rest : List File)
    (h : (uploadLoop w s pre).2 = none) :
    uploadLoop w s (pre ++ rest) = uploadLoop w (uploadLoop w s pre).1 rest := by
  induction pre generalizing s with
  | nil => simp [uploadLoop]
  | cons file pre ih =>
    cases hf : (uploadFile w s file).2 with
    | some e => rw [uploadLoop_cons_error hf] at h; simp at h
    | none =>
      rw [uploadLoop_cons_ok hf] at h
      rw [List.cons_append, uploadLoop_cons_ok hf, uploadLoop_cons_ok hf]
      exact ih _ h

/-- An iteration whose processing fails throws, registers nothing and removes
no temporary file. -/
theorem uploadFile_of_processingFails (w : World) (s : Server) (file : File)
    (hnew : file.originalname ∉ s.uploadedSourceNames)
    (hfail : processingFails w file = true) :
    (∃ e, (uploadFile w s file).2 = some e) ∧
    (uploadFile w s file).1.uploadedSourceNames = s.uploadedSourceNames ∧
    (uploadFile w s file).1.tmpFiles = s.tmpFiles := by
  unfold processingFails at hfail
  cases hl : w.load file.path with
  | error e => rw [uploadFile_load_error hnew hl]; exact ⟨⟨e, rfl⟩, rfl, rfl⟩
  | ok rawDocs =>
    rw [hl] at hfail
    dsimp only at hfail
    cases hs : w.splitDocuments (cleanDocs file rawDocs) with
    | error e => rw [uploadFile_split_error hnew hl hs]; exact ⟨⟨e, rfl⟩, rfl, rfl⟩
    | ok chunkedDocs =>
      rw [hs] at hfail
      dsimp only at hfail
      cases hu : w.fromDocuments chunkedDocs with
      | failed e written =>
        rw [uploadFile_upsert_error hnew hl hs hu]; exact ⟨⟨e, rfl⟩, rfl, rfl⟩
      | ok => rw [hu] at hfail; simp at hfail

/-- The chat handler only changes `History`. -/
theorem chatPoints_names (w : World) (s : Server) (message : String) :
    ∀ t ∈ chatPoints w s message, t.uploadedSourceNames = s.uploadedSourceNames := by
  have htrim : (trimHistory s).uploadedSourceNames = s.uploadedSourceNames := by
    unfold trimHistory
    split_ifs <;> rfl
  intro t ht
  unfold chatPoints at ht
  dsimp only at ht
  repeat' split at ht
  all_goals
    simp only [List.mem_cons, List.mem_singleton, List.not_mem_nil, or_false] at ht
    rcases ht with rfl | rfl | rfl | rfl <;> first | rfl | exact htrim

/-- The chat handler ends in one of the states it passes through. -/
theorem chatHandler_mem_points (w : World) (s : Server) (message : String) :
    (chatHandler w s message).1 ∈ chatPoints w s message := by
  unfold chatHandler chatPoints
  dsimp only
  repeat' split
  all_goals simp

/-- Handling a request ends in one of the states passed through. -/
theorem handle_mem_points (s : Server) (r : Request) : (handle s r).1 ∈ points s r := by
  cases r with
  | upload w files =>
    simp only [handle, points, uploadRoute, List.mem_cons]
    exact Or.inr (uploadHandler_mem_points w _ files)
  | chat w message => exact chatHandler_mem_points w s message
  | clearIndex w => simp [handle, points]

/-- The state after a sequence of requests is the last of the states passed
through. -/
theorem run_mem_runPoints (s : Server) (reqs : List Request) :
    run s reqs ∈ runPoints s reqs := by
  induction reqs generalizing s with
  | nil => simp [run, runPoints]
  | cons r rs ih =>
    simp only [run, runPoints, List.mem_append]
    exact Or.inr (ih _)

/-- Handling one request from a state within capacity only passes through states
within capacity. -/
theorem points_card (s : Server) (r : Request)
    (h : s.uploadedSourceNames.card ≤ MAX_FILES_ALLOWED) :
    ∀ t ∈ points s r, t.uploadedSourceNames.card ≤ MAX_FILES_ALLOWED := by
  intro t ht
  cases r with
  | upload w files =>
    simp only [points, List.mem_cons] at ht
    rcases ht with rfl | ht
    · exact h
    · exact uploadPoints_card w (multerArray s files) files h t ht
  | chat w message =>
    rw [chatPoints_names w s message t ht]
    exact h
  | clearIndex w =>
    simp only [points, List.mem_cons, List.mem_singleton, List.not_mem_nil, or_false] at ht
    rcases ht with rfl | rfl
    · exact h
    · unfold clearIndexHandler
      dsimp only
      split
      · exact h
      · simp

/-- Capacity is kept along every sequence of requests, at every state passed
through. -/
theorem runPoints_card (s : Server) (reqs : List Request)
    (h : s.uploadedSourceNames.card ≤ MAX_FILES_ALLOWED) :
    ∀ t ∈ runPoints s reqs, t.uploadedSourceNames.card ≤ MAX_FILES_ALLOWED := by
  induction reqs generalizing s with
  | nil =>
    intro t ht
    simp only [runPoints, List.mem_singleton] at ht
    subst ht
    exact h
  | cons r rs ih =>
    intro t ht
    simp only [runPoints, List.mem_append] at ht
    rcases ht with ht | ht
    · exact points_card s r h t ht
    · exact ih _ (points_card s r h _ (handle_mem_points s r)) t ht

/-- An upload iteration does not touch `History`. -/
theorem uploadFile_History (w : World) (s : Server) (file : File) :
    (uploadFile w s file).1.History = s.History := by
  by_cases h1 : file.originalname ∈ s.uploadedSourceNames
  · rw [uploadFile_dup h1]
    unfold unlinkSync
    split_ifs <;> rfl
  · cases hl : w.load file.path with
    | error e => rw [uploadFile_load_error h1 hl]
    | ok rawDocs =>
      cases hs : w.splitDocuments (cleanDocs file rawDocs) with
      | error e => rw [uploadFile_split_error h1 hl hs]
      | ok chunkedDocs =>
        cases hu : w.fromDocuments chunkedDocs with
        | failed e written => rw [uploadFile_upsert_error h1 hl hs hu]
        | ok =>
          rw [uploadFile_processed h1 hl hs hu]
          unfold unlinkSync
          split_ifs <;> rfl

/-- The upload loop does not touch `History`. -/
theorem uploadLoopPoints_History (w : World) (files : List File) (s : Server) :
    ∀ t ∈ uploadLoopPoints w s files, t.History = s.History := by
  induction files generalizing s with
  | nil =>
    intro t ht
    simp only [uploadLoopPoints, List.mem_singleton] at ht
    rw [ht]
  | cons file rest ih =>
    intro t ht
    have hh := uploadFile_History w s file
    simp only [uploadLoopPoints, List.mem_cons] at ht
    rcases ht with rfl | ht
    · rfl
    · rcases hf : uploadFile w s file with ⟨s', _ | e⟩
      · rw [hf] at ht hh
        rw [ih s' t ht]
        exact hh
      · rw [hf] at ht hh
        simp only [List.mem_singleton] at ht
        rw [ht]
        exact hh

/-- `slice(-8)` keeps the last eight elements. -/
theorem jsSlice_neg_eight {α : Type} (xs : List α) :
    jsSlice xs (-8) = xs.drop (xs.length - 8) := by
  unfold jsSlice
  rw [if_pos (by decide)]
  congr 1
  omega

/-- The history after the trim. -/
theorem trimHistory_History (s : Server) :
    (trimHistory s).History
      = if s.History.length ≤ 8 then s.History else s.History.drop (s.History.length - 8) := by
  unfold trimHistory
  by_cases h : s.History.length > 8
  · rw [if_pos h, if_neg (by omega)]
    exact jsSlice_neg_eight s.History
  · rw [if_neg h, if_pos (by omega)]

/-- After the trim the history holds at most eight turns. -/
theorem trimHistory_length_le (s : Server) : (trimHistory s).History.length ≤ 8 := by
  rw [trimHistory_History]
  split_ifs with h
  · exact h
  · rw [List.length_drop]
    omega

/-- Every state the chat handler passes through after entry holds at most
ten turns. -/
theorem chatPoints_History_length (w : World) (s : Server) (message : String)
    (h : s.History.length ≤ 10) :
    ∀ t ∈ chatPoints w s message, t.History.length ≤ 10 := by
  have h1 := trimHistory_length_le s
  intro t ht
  unfold chatPoints at ht
  dsimp only at ht
  repeat' split at ht
  all_goals
    simp only [List.mem_cons, List.mem_singleton, List.not_mem_nil, or_false] at ht
    rcases ht with rfl | rfl | rfl | rfl <;>
      (try simp only [pushHistory, List.length_append, List.length_singleton]) <;> omega

/-- Handling one request from a state whose history holds at most ten turns
only passes through such states. -/
theorem points_History_length (s : Server) (r : Request) (h : s.History.length ≤ 10) :
    ∀ t ∈ points s r, t.History.length ≤ 10 := by
  intro t ht
  cases r with
  | upload w files =>
    simp only [points, List.mem_cons] at ht
    rcases ht with rfl | ht
    · exact h
    · unfold uploadPoints at ht
      split_ifs at ht
      · simp only [List.mem_singleton] at ht
        rw [ht]
        exact h
      · simp only [List.mem_singleton] at ht
        rw [ht]
        exact h
      · rw [uploadLoopPoints_History w files _ t ht]
        exact h
  | chat w message => exact chatPoints_History_length w s message h t ht
  | clearIndex w =>
    simp only [points, List.mem_cons, List.mem_singleton, List.not_mem_nil, or_false] at ht
    rcases ht with rfl | rfl
    · exact h
    · unfold clearIndexHandler
      dsimp only
      split <;> exact h

/-- The history holds at most ten turns at every state passed through by a
sequence of requests. -/
theorem runPoints_History_length (s : Server) (reqs : List Request)
    (h : s.History.length ≤ 10) :
    ∀ t ∈ runPoints s reqs, t.History.length ≤ 10 := by
  induction reqs generalizing s with
  | nil =>
    intro t ht
    simp only [runPoints, List.mem_singleton] at ht
    subst ht
    exact h
  | cons r rs ih =>
    intro t ht
    simp only [runPoints, List.mem_append] at ht
    rcases ht with ht | ht
    · exact points_History_length s r h t ht
    · exact ih _ (points_History_length s r h _ (handle_mem_points s r)) t ht

/-- Every state reached from a fresh server is within capacity. -/
theorem run_card_le (reqs : List Request) :
    (run init reqs).uploadedSourceNames.card ≤ MAX_FILES_ALLOWED :=
  runPoints_card init reqs (by decide) _ (run_mem_runPoints init reqs)

/-! ## Claims -/

/-- C1. Capacity invariant: from the empty registry, along any sequence of
`/upload`, `/chat` and `/clear-index` requests, whatever the collaborators
answer (success or failure at any call), every state the server passes
through, between two files of a batch included, has at most
`MAX_FILES_ALLOWED = 5` registered source names. -/
theorem capacity_invariant (reqs : List Request) (t : Server)
    (ht : t ∈ runPoints init reqs) :
    t.uploadedSourceNames.card ≤ MAX_FILES_ALLOWED ∧ MAX_FILES_ALLOWED = 5 :=
  ⟨runPoints_card init reqs (by decide) t ht, rfl⟩

/-- Witness of C1: the state after uploading `a.pdf` and `b.pdf` to a fresh
server is a state passed through, and holds two names. -/
theorem capacity_invariant_witness :
    (run init [Request.upload okWorld [fileA, fileB]]).uploadedSourceNames.card = 2 ∧
    (run init [Request.upload okWorld [fileA, fileB]]).uploadedSourceNames.card
      ≤ MAX_FILES_ALLOWED :=
  ⟨by decide,
   (capacity_invariant [Request.upload okWorld [fileA, fileB]] _
      (run_mem_runPoints init _)).1⟩

/-- C2. In every state the server can reach and for every batch whose size
plus the number of registered names exceeds 5, the upload is answered with
status 403 and the limit message, no call is made to the file system or to
a collaborator (nothing is parsed, split, upserted or unlinked), and the
registry, the index and the history are as before.  Nothing is assumed about
the names of the batch: names already registered count toward the limit. -/
theorem capacity_rejection (reqs : List Request) (w : World) (files : List File)
    (h : files.length + (run init reqs).uploadedSourceNames.card > 5) :
    (uploadRoute w (run init reqs) files).2 = ⟨403, limitBody (run init reqs)⟩ ∧
    (uploadRoute w (run init reqs) files).1 = multerArray (run init reqs) files ∧
    (uploadRoute w (run init reqs) files).1.uploadedSourceNames
      = (run init reqs).uploadedSourceNames ∧
    (uploadRoute w (run init reqs) files).1.log = (run init reqs).log ∧
    (uploadRoute w (run init reqs) files).1.index = (run init reqs).index ∧
    (uploadRoute w (run init reqs) files).1.History = (run init reqs).History := by
  have hinv := run_card_le reqs
  have hne : ¬ files.length = 0 := by
    unfold MAX_FILES_ALLOWED at hinv
    omega
  have hgt : (multerArray (run init reqs) files).uploadedSourceNames.card + files.length
      > MAX_FILES_ALLOWED := by
    unfold MAX_FILES_ALLOWED
    show (run init reqs).uploadedSourceNames.card + files.length > 5
    omega
  have hr : uploadRoute w (run init reqs) files
      = (multerArray (run init reqs) files, ⟨403, limitBody (run init reqs)⟩) := by
    unfold uploadRoute uploadHandler
    rw [if_neg hne, if_pos hgt]
    rfl
  rw [hr]
  exact ⟨rfl, rfl, rfl, rfl, rfl, rfl⟩

/-- Witness of C2: with four sources registered, a batch of two files both
named `a.pdf`, a registered name, is rejected with 403. -/
theorem capacity_rejection_witness :
    fourSources.uploadedSourceNames.card = 4 ∧
    fileA.originalname ∈ fourSources.uploadedSourceNames ∧
    (uploadRoute okWorld fourSources [fileA, fileA2]).2.status = 403 ∧
    (uploadRoute okWorld fourSources [fileA, fileA2]).1.uploadedSourceNames
      = fourSources.uploadedSourceNames :=
  ⟨by decide, by decide,
   congrArg Response.status
    (capacity_rejection [Request.upload okWorld [fileA, fileB, fileC, fileD]] okWorld
      [fileA, fileA2] (by decide)).1,
   (capacity_rejection [Request.upload okWorld [fileA, fileB, fileC, fileD]] okWorld
      [fileA, fileA2] (by decide)).2.2.1⟩

/-- C4. Uploading one file whose name is already registered, when the batch
passes the capacity check: the request succeeds with status 200, the registry
and the index are as before, the only call made is the removal of the
temporary file (no parse, no split, no upsert), and the reported total is the
number of names registered before, so no source is newly added. -/
theorem duplicate_upload_noop (w : World) (s : Server) (file : File)
    (hreg : file.originalname ∈ s.uploadedSourceNames)
    (hcap : s.uploadedSourceNames.card + 1 ≤ MAX_FILES_ALLOWED) :
    (uploadRoute w s [file]).2 = ⟨200, successBody s⟩ ∧
    (uploadRoute w s [file]).1.uploadedSourceNames = s.uploadedSourceNames ∧
    (uploadRoute w s [file]).1.uploadedSourceNames.card - s.uploadedSourceNames.card = 0 ∧
    (uploadRoute w s [file]).1.index = s.index ∧
    (uploadRoute w s [file]).1.log = s.log ++ [Event.unlink file.path] ∧
    (uploadRoute w s [file]).1.History = s.History := by
  have hmem : file.path ∈ (multerArray s [file]).tmpFiles := by
    simp [multerArray]
  have hfile : uploadFile w (multerArray s [file]) file
      = ({ multerArray s [file] with
            tmpFiles := (multerArray s [file]).tmpFiles.erase file.path,
            log := s.log ++ [Event.unlink file.path] }, none) := by
    rw [uploadFile_dup (show file.originalname ∈ (multerArray s [file]).uploadedSourceNames
      from hreg)]
    unfold unlinkSync
    rw [if_pos hmem]
    rfl
  have hcap2 : ¬ (multerArray s [file]).uploadedSourceNames.card + [file].length
      > MAX_FILES_ALLOWED := by
    show ¬ s.uploadedSourceNames.card + 1 > MAX_FILES_ALLOWED
    omega
  have hr : uploadRoute w s [file]
      = ({ multerArray s [file] with
            tmpFiles := (multerArray s [file]).tmpFiles.erase file.path,
            log := s.log ++ [Event.unlink file.path] }, ⟨200, successBody s⟩) := by
    unfold uploadRoute uploadHandler
    rw [if_neg (by simp), if_neg hcap2]
    simp only [uploadLoop, hfile]
    rfl
  rw [hr]
  exact ⟨rfl, rfl, Nat.sub_self _, rfl, rfl, rfl⟩

/-- Witness of C4: `a.pdf` uploaded again on a server that holds `a.pdf` and
`b.pdf`. -/
theorem duplicate_upload_noop_witness :
    (uploadRoute okWorld (run init [Request.upload okWorld [fileA, fileB]]) [fileA2]).2.status
      = 200 ∧
    (uploadRoute okWorld (run init [Request.upload okWorld [fileA, fileB]])
      [fileA2]).1.uploadedSourceNames
      = (run init [Request.upload okWorld [fileA, fileB]]).uploadedSourceNames ∧
    (uploadRoute okWorld (run init [Request.upload okWorld [fileA, fileB]]) [fileA2]).1.index
      = (run init [Request.upload okWorld [fileA, fileB]]).index :=
  ⟨congrArg Response.status
    (duplicate_upload_noop okWorld (run init [Request.upload okWorld [fileA, fileB]]) fileA2
      (by decide) (by decide)).1,
   (duplicate_upload_noop okWorld (run init [Request.upload okWorld [fileA, fileB]]) fileA2
      (by decide) (by decide)).2.1,
   (duplicate_upload_noop okWorld (run init [Request.upload okWorld [fileA, fileB]]) fileA2
      (by decide) (by decide)).2.2.2.1⟩

/-- C5, as the code has it.  A successful upload reports the total number of
sources under `fileCount`, equal to the size of the registry after the call,
and reports nothing under `addedSourceCount`.  The registry after the call is
the registry before together with the names of the batch, so the number of
sources newly registered (size after minus size before) is the number of
distinct names of the batch that were not registered before. -/
theorem upload_reports_total (w : World) (s : Server) (files : List File)
    (h : (uploadRoute w s files).2.status = 200) :
    (uploadRoute w s files).2.reports "fileCount"
      = some (JVal.num (uploadRoute w s files).1.uploadedSourceNames.card) ∧
    (uploadRoute w s files).2.reports "addedSourceCount" = none ∧
    (uploadRoute w s files).1.uploadedSourceNames
      = s.uploadedSourceNames ∪ (files.map File.originalname).toFinset ∧
    (uploadRoute w s files).1.uploadedSourceNames.card - s.uploadedSourceNames.card
      = ((files.map File.originalname).toFinset \ s.uploadedSourceNames).card := by
  unfold uploadRoute uploadHandler at h ⊢
  split_ifs at h ⊢ with h0 h1
  · simp at h
  · simp at h
  · have hnames := uploadLoop_names_of_ok w (multerArray s files) files
    rcases hl : uploadLoop w (multerArray s files) files with ⟨s', _ | e⟩
    · rw [hl] at hnames
      have hn : s'.uploadedSourceNames
          = s.uploadedSourceNames ∪ (files.map File.originalname).toFinset := hnames rfl
      refine ⟨by simp [Response.reports, successBody, List.lookup],
        by simp [Response.reports, successBody, List.lookup], hn, ?_⟩
      dsimp only
      rw [hn, Finset.union_comm, ← Finset.card_sdiff_add_card]
      omega
    · rw [hl] at h
      simp at h

/-- Witness of C5 as amended: from the empty registry, uploading `a.pdf` and
`b.pdf` reports a total of 2; uploading `a.pdf` again reports a total of 2. -/
theorem upload_reports_total_witness :
    (uploadRoute okWorld init [fileA, fileB]).2.reports "fileCount" = some (JVal.num 2) ∧
    (uploadRoute okWorld (uploadRoute okWorld init [fileA, fileB]).1 [fileA2]).2.reports
      "fileCount" = some (JVal.num 2) ∧
    (uploadRoute okWorld init [fileA, fileB]).1.uploadedSourceNames.card
      - init.uploadedSourceNames.card = 2 ∧
    (uploadRoute okWorld (uploadRoute okWorld init [fileA, fileB]).1
        [fileA2]).1.uploadedSourceNames.card
      - (uploadRoute okWorld init [fileA, fileB]).1.uploadedSourceNames.card = 0 :=
  ⟨(upload_reports_total okWorld init [fileA, fileB] (by decide)).1.trans (by decide),
   (upload_reports_total okWorld (uploadRoute okWorld init [fileA, fileB]).1 [fileA2]
      (by decide)).1.trans (by decide),
   (upload_reports_total okWorld init [fileA, fileB] (by decide)).2.2.2.trans (by decide),
   (upload_reports_total okWorld (uploadRoute okWorld init [fileA, fileB]).1 [fileA2]
      (by decide)).2.2.2.trans (by decide)⟩

/-- Counterexample to C5 as stated: the successful upload of `a.pdf` and
`b.pdf` to a fresh server answers with exactly the fields `success`, `message`
and `fileCount`; it does not report `addedSourceCount = 2`. -/
theorem upload_reports_no_added_count :
    (uploadRoute okWorld init [fileA, fileB]).2.status = 200 ∧
    (uploadRoute okWorld init [fileA, fileB]).2.body.map Prod.fst
      = ["success", "message", "fileCount"] ∧
    (uploadRoute okWorld init [fileA, fileB]).2.reports "addedSourceCount"
      ≠ some (JVal.num 2) := by
  decide

/-- C6. A batch that passes the empty and capacity checks, in which the files
before position `i` are handled without error, and the file at position `i`
is not yet registered and its processing (parse, split or upsert) throws: the
answer has status 500, the registry afterwards is the registry before
together with the names of the files before position `i`, the name of the
failing file is not in it, and the handler stops in the state in which that
iteration threw, so the files after position `i` play no part: the outcome is
that of the batch cut after position `i`. -/
theorem upload_abort_not_transactional (w : World) (s : Server) (before : List File)
    (file : File) (after : List File)
    (hcap : s.uploadedSourceNames.card + (before ++ file :: after).length ≤ MAX_FILES_ALLOWED)
    (hbefore : (uploadLoop w s before).2 = none)
    (hnew : file.originalname ∉ (uploadLoop w s before).1.uploadedSourceNames)
    (hfail : processingFails w file = true) :
    (uploadHandler w s (before ++ file :: after)).2.status = 500 ∧
    (uploadHandler w s (before ++ file :: after)).1.uploadedSourceNames
      = s.uploadedSourceNames ∪ (before.map File.originalname).toFinset ∧
    file.originalname ∉ (uploadHandler w s (before ++ file :: after)).1.uploadedSourceNames ∧
    (uploadHandler w s (before ++ file :: after)).1
      = (uploadFile w (uploadLoop w s before).1 file).1 ∧
    uploadHandler w s (before ++ file :: after) = uploadHandler w s (before ++ [file]) := by
  obtain ⟨⟨e, he⟩, hreg, -⟩ :=
    uploadFile_of_processingFails w (uploadLoop w s before).1 file hnew hfail
  have hloop : ∀ rest, uploadLoop w s (before ++ file :: rest)
      = ((uploadFile w (uploadLoop w s before).1 file).1, some e) := by
    intro rest
    rw [uploadLoop_append w s before _ hbefore, uploadLoop_cons_error he]
  have hlen : ∀ rest : List File, ¬ (before ++ file :: rest).length = 0 := by
    intro rest
    simp
  have hcap1 : ¬ s.uploadedSourceNames.card + (before ++ file :: after).length
      > MAX_FILES_ALLOWED := by omega
  have hcap2 : ¬ s.uploadedSourceNames.card + (before ++ [file]).length
      > MAX_FILES_ALLOWED := by
    simp only [List.length_append, List.length_cons, List.length_nil] at hcap ⊢
    omega
  have h1 : uploadHandler w s (before ++ file :: after)
      = ((uploadFile w (uploadLoop w s before).1 file).1, ⟨500, [("error", JVal.str e)]⟩) := by
    unfold uploadHandler
    rw [if_neg (hlen after), if_neg hcap1, hloop after]
  have h2 : uploadHandler w s (before ++ [file])
      = ((uploadFile w (uploadLoop w s before).1 file).1, ⟨500, [("error", JVal.str e)]⟩) := by
    unfold uploadHandler
    rw [if_neg (hlen []), if_neg hcap2, hloop []]
  have hnames := uploadLoop_names_of_ok w s before hbefore
  rw [h1, h2]
  refine ⟨rfl, ?_, ?_, rfl, rfl⟩
  · show (uploadFile w (uploadLoop w s before).1 file).1.uploadedSourceNames = _
    rw [hreg, hnames]
  · show file.originalname ∉ (uploadFile w (uploadLoop w s before).1 file).1.uploadedSourceNames
    rw [hreg]
    exact hnew

/-- Witness of C6: `a.pdf`, `b.pdf`, `c.pdf` uploaded to a fresh server when
`b.pdf` cannot be parsed: status 500 and only `a.pdf` is registered. -/
theorem upload_abort_not_transactional_witness :
    (uploadHandler secondFailsWorld (multerArray init [fileA, fileB, fileC])
      ([fileA] ++ fileB :: [fileC])).2.status = 500 ∧
    (uploadHandler secondFailsWorld (multerArray init [fileA, fileB, fileC])
      ([fileA] ++ fileB :: [fileC])).1.uploadedSourceNames = {"a.pdf"} :=
  ⟨(upload_abort_not_transactional secondFailsWorld (multerArray init [fileA, fileB, fileC])
      [fileA] fileB [fileC] (by decide) (by decide) (by decide) (by decide)).1,
   (upload_abort_not_transactional secondFailsWorld (multerArray init [fileA, fileB, fileC])
      [fileA] fileB [fileC] (by decide) (by decide) (by decide) (by decide)).2.1.trans
        (by decide)⟩

/-- C7 at a failing input: one file `a.pdf`, stored at `uploads/1`, that
cannot be parsed, uploaded to a fresh server.  The loop reaches the file,
the handler answers 500, and the temporary file is still on disk: no
`unlink` was called. -/
theorem upload_failure_leaves_temp_file :
    (uploadRoute parseFailWorld init [fileA]).2.status = 500 ∧
    (uploadRoute parseFailWorld init [fileA]).1.log = [Event.load "uploads/1"] ∧
    fileA.path ∈ (uploadRoute parseFailWorld init [fileA]).1.tmpFiles := by
  decide

/-- C3, as the code has it.  Along every sequence of requests from the empty
history, at every state the server passes through, `History` holds at most
10 turns; immediately after the trim that starts a chat request it holds at
most 8, and after the user turn is appended at most 9. -/
theorem history_window_bound (reqs : List Request) (t : Server)
    (ht : t ∈ runPoints init reqs) :
    t.History.length ≤ 10 ∧
    (trimHistory t).History.length ≤ 8 ∧
    ∀ message : String,
      (pushHistory (trimHistory t) ⟨"user", message⟩).History.length ≤ 9 := by
  refine ⟨runPoints_History_length init reqs (by decide) t ht, trimHistory_length_le t, ?_⟩
  intro message
  have := trimHistory_length_le t
  simp only [pushHistory, List.length_append, List.length_singleton]
  omega

/-- Witness of C3 as amended: the state after five answered questions. -/
theorem history_window_bound_witness :
    (run init fiveChats).History.length ≤ 10 ∧
    (trimHistory (run init fiveChats)).History.length ≤ 8 :=
  ⟨(history_window_bound fiveChats (run init fiveChats) (run_mem_runPoints init _)).1,
   (history_window_bound fiveChats (run init fiveChats) (run_mem_runPoints init _)).2.1⟩

/-- Counterexample to C3 as stated: after five answered questions on a fresh
server, `History` holds 10 turns, more than 9. -/
theorem history_exceeds_nine :
    (run init fiveChats).History.length = 10 ∧
    ¬ (run init fiveChats).History.length ≤ 9 := by
  decide

/-- C8. When a chat request on message `m` is answered with reply `r` (every
external call succeeded), `History` afterwards is the trimmed history, which
is `H` itself when it holds at most 8 turns and its last 8 turns otherwise,
followed by the user turn holding `m` itself and the assistant turn
holding `r`. -/
theorem chat_history_update (w : World) (s : Server) (m r : String)
    (h : (chatHandler w s m).2 = ⟨200, [("reply", JVal.str r)]⟩) :
    (chatHandler w s m).1.History
      = (if s.History.length ≤ 8 then s.History
          else s.History.drop (s.History.length - 8))
        ++ [⟨"user", m⟩, ⟨"assistant", r⟩] := by
  rw [← trimHistory_History]
  unfold chatHandler at h ⊢
  dsimp only at h ⊢
  repeat' split at h
  all_goals simp only [errorResponse, Prod.mk.injEq, Response.mk.injEq] at h
  all_goals try omega
  rename_i reply hreply
  simp only [hreply]
  simp only [List.cons.injEq, Prod.mk.injEq, JVal.str.injEq, true_and, and_true] at h
  subst h
  simp [pushHistory]

/-- Witness of C8: a sixth question on a server whose history holds 10 turns.
The two oldest turns are dropped, and the user turn holds the question, not
the rephrased query. -/
theorem chat_history_update_witness :
    (run init fiveChats).History.length = 10 ∧
    (chatHandler okWorld (run init fiveChats) "Why?").1.History
      = (run init fiveChats).History.drop 2 ++ [⟨"user", "Why?"⟩, ⟨"assistant", "reply"⟩] :=
  ⟨by decide,
   (chat_history_update okWorld (run init fiveChats) "Why?" "reply" (by decide)).trans
     (by decide)⟩

/-- C10. After a `/clear-index` request that succeeds, whatever the registry
and the index held, no source name is registered, the index holds no record,
and a query on it, for any vector and any limit, either throws or returns
no match. -/
theorem clear_index_empties (w : World) (s : Server)
    (h : (clearIndexHandler w s).2.status = 200) :
    (clearIndexHandler w s).1.uploadedSourceNames.card = 0 ∧
    (clearIndexHandler w s).1.index = [] ∧
    ∀ (w' : World) (topK : Nat) (vector : Embedding),
      pineconeQuery w' (clearIndexHandler w s).1.index topK vector = .ok [] ∨
      ∃ e, pineconeQuery w' (clearIndexHandler w s).1.index topK vector = .error e := by
  unfold clearIndexHandler at h ⊢
  dsimp only at h ⊢
  cases hd : w.deleteAll with
  | some e => simp [hd] at h
  | none =>
    dsimp only
    refine ⟨Finset.card_empty, rfl, ?_⟩
    intro w' topK vector
    unfold pineconeQuery
    cases hq : w'.queryError with
    | none => left; simp
    | some e => right; exact ⟨e, rfl⟩

/-- Witness of C10: clearing a server that holds four sources. -/
theorem clear_index_empties_witness :
    fourSources.uploadedSourceNames.card = 4 ∧
    fourSources.index.length = 4 ∧
    (clearIndexHandler okWorld fourSources).1.uploadedSourceNames.card = 0 ∧
    pineconeQuery okWorld (clearIndexHandler okWorld fourSources).1.index 5 [0] = .ok [] :=
  ⟨by decide, by decide,
   (clear_index_empties okWorld fourSources (by decide)).1,
   by
     rw [(clear_index_empties okWorld fourSources (by decide)).2.1]
     rfl⟩

/-- C9, as the code has it.  For a file that is processed successfully, and
whatever the parser returned: every document handed to the splitter carries
exactly the metadata `source: originalname`, so the parser metadata never
reaches the splitter; the chunks sent to the index are the output of the
splitter on these documents; and when every chunk carries the metadata of one
of the documents it was split from, every chunk sent to the index carries
exactly `source: originalname`. -/
theorem chunks_tagged_with_source (w : World) (s : Server) (file : File)
    (rawDocs chunkedDocs : List Document)
    (hnew : file.originalname ∉ s.uploadedSourceNames)
    (hl : w.load file.path = .ok rawDocs)
    (hs : w.splitDocuments (cleanDocs file rawDocs) = .ok chunkedDocs)
    (hu : w.fromDocuments chunkedDocs = .ok) :
    (∀ d ∈ cleanDocs file rawDocs, d.metadata = [("source", JVal.str file.originalname)]) ∧
    (∀ rawDocs' : List Document,
      rawDocs'.map Document.pageContent = rawDocs.map Document.pageContent →
      cleanDocs file rawDocs' = cleanDocs file rawDocs) ∧
    Event.split (cleanDocs file rawDocs) ∈ (uploadFile w s file).1.log ∧
    Event.upsert chunkedDocs ∈ (uploadFile w s file).1.log ∧
    (uploadFile w s file).1.index = s.index ++ chunkedDocs ∧
    ((∀ c ∈ chunkedDocs, ∃ d ∈ cleanDocs file rawDocs, c.metadata = d.metadata) →
      ∀ c ∈ chunkedDocs, c.metadata = [("source", JVal.str file.originalname)]) := by
  have hclean : ∀ d ∈ cleanDocs file rawDocs,
      d.metadata = [("source", JVal.str file.originalname)] := by
    intro d hd
    simp only [cleanDocs, List.mem_map] at hd
    obtain ⟨d0, -, rfl⟩ := hd
    rfl
  refine ⟨hclean, ?_, ?_, ?_, ?_, ?_⟩
  · intro rawDocs' h
    have : ∀ l : List Document, cleanDocs file l
        = (l.map Document.pageContent).map
            (fun p => (⟨p, [("source", JVal.str file.originalname)]⟩ : Document)) := by
      intro l
      simp [cleanDocs]
    rw [this rawDocs', this rawDocs, h]
  · rw [uploadFile_processed hnew hl hs hu]
    unfold unlinkSync
    split_ifs <;> simp
  · rw [uploadFile_processed hnew hl hs hu]
    unfold unlinkSync
    split_ifs <;> simp
  · rw [uploadFile_processed hnew hl hs hu]
    unfold unlinkSync
    split_ifs <;> rfl
  · intro hcopy c hc
    obtain ⟨d, hd, hcd⟩ := hcopy c hc
    rw [hcd]
    exact hclean d hd

/-- Witness of C9 as amended: `a.pdf`, whose parsed page carries parser
metadata, processed with a splitter that returns its input. -/
theorem chunks_tagged_with_source_witness :
    (uploadFile okWorld (multerArray init [fileA]) fileA).1.index
      = [⟨"text of uploads/1", [("source", JVal.str "a.pdf")]⟩] :=
  (chunks_tagged_with_source okWorld (multerArray init [fileA]) fileA
    [⟨"text of uploads/1", [("source", JVal.str "uploads/1"), ("page", JVal.num 1)]⟩]
    [⟨"text of uploads/1", [("source", JVal.str "a.pdf")]⟩]
    (by decide) rfl rfl rfl).2.2.2.2.1

/-- Counterexample to C9 as stated: `a.pdf` uploaded successfully while the
splitter records the position of each chunk under `loc`.  The chunk sent to
the index carries `source` and `loc`, not `source` alone. -/
theorem chunk_metadata_not_only_source :
    (uploadRoute locWorld init [fileA]).2.status = 200 ∧
    (uploadRoute locWorld init [fileA]).1.index
      = [⟨"text of uploads/1", [("source", JVal.str "a.pdf"), ("loc", JVal.str "1-1")]⟩] ∧
    Event.upsert
        [⟨"text of uploads/1", [("source", JVal.str "a.pdf"), ("loc", JVal.str "1-1")]⟩]
      ∈ (uploadRoute locWorld init [fileA]).1.log ∧
    ¬ ∀ c ∈ (uploadRoute locWorld init [fileA]).1.index,
        c.metadata = [("source", JVal.str "a.pdf")] := by
  decide

end AskDocs
